import Mathlib

/-!
Verification of the nmcli command-construction and execution layer
(rrmngmnt/nmcli.py).

The Python module is shallowly embedded below:

* Python `None`-able parameters become `Option` values.
* Python booleans/ints/strings that flow into the same dict slot are
  modelled by the sum type `PyVal`; Python identity comparison
  `value is True` becomes equality with `PyVal.pyBool true`.
* Python dicts used as ordered key/value option bags become association
  lists (`List (String × PyVal)`), preserving insertion order.
* The injected executor method (run a command vector on the host) becomes
  a function argument `runner : List String → Int × String × String`
  returning exit code, stdout and stderr.
* A raised `CommandExecutionFailure` becomes an `Except.error` carrying
  exactly the data the `raise` site passes to the exception constructor.
* An out-of-range list subscript (Python `IndexError`) is modelled by the
  error value `NmcliError.indexError`.

Observation functions (`words`, `splitlines`, `splitOnCh`) give the
token-level and line-level views used to state the specification claims.
-/

namespace Rrmngmnt

/-- A Python value appearing in option slots: bool, int or str.
Equality of `PyVal`s models Python identity for these literals, so
`value is True` is `value = PyVal.pyBool true`. -/
inductive PyVal where
  | pyBool : Bool → PyVal
  | pyInt : Int → PyVal
  | pyStr : String → PyVal
deriving DecidableEq

/-- Python `str()` rendering of a `PyVal`, as used by `str.format`. -/
def PyVal.render : PyVal → String
  | .pyBool b => if b then "True" else "False"
  | .pyInt n => toString n
  | .pyStr s => s

/-- Python truthiness of an optional string (`if s:`):
`None` and the empty string are falsy. -/
def truthyStr : Option String → Bool
  | none => false
  | some s => s != ""

/-- Python truthiness of an optional int (`if n:`): `None` and `0` are falsy. -/
def truthyInt : Option Int → Bool
  | none => false
  | some n => n != 0

/-- Python `str()` of an optional string: `None` renders as `"None"`. -/
def optStr : Option String → String
  | none => "None"
  | some s => s

namespace Objects

/-- Constant `Objects.CONNECTION` from the source. -/
def CONNECTION : String := "connection"

/-- Constant `Objects.DEVICE` from the source. -/
def DEVICE : String := "device"

end Objects

namespace Operations

/-- Constant `Operations.ADD` from the source. -/
def ADD : String := "add"

/-- Constant `Operations.MODIFY` from the source. -/
def MODIFY : String := "modify"

/-- Constant `Operations.DELETE` from the source. -/
def DELETE : String := "delete"

/-- Constant `Operations.SHOW` from the source. -/
def SHOW : String := "show"

end Operations

/-- Splits a character list at every occurrence of `sep`, keeping empty
segments, accumulating the current segment in `acc` (reversed). -/
def splitChAux (sep : Char) : List Char → List Char → List (List Char)
  | [], acc => [acc.reverse]
  | c :: cs, acc =>
      if c = sep then acc.reverse :: splitChAux sep cs []
      else splitChAux sep cs (c :: acc)

/-- Splits a string at every occurrence of the character `sep`, keeping
empty segments; models Python `str.split(sep)` for a one-character
separator. -/
def splitOnCh (sep : Char) (s : String) : List String :=
  (splitChAux sep s.data []).map String.mk

/-- The whitespace tokens of a string: segments between single spaces. -/
def words (s : String) : List String :=
  splitOnCh ' ' s

/-- Models Python `str.splitlines()` for newline-separated text: splits at
every newline and drops the trailing empty segment produced by a final
newline. -/
def splitlines (s : String) : List String :=
  if s = "" then []
  else
    let parts := splitOnCh '\n' s
    if parts.getLast? = some "" then parts.dropLast else parts

/-- Models Python `shlex.split` for command strings containing no quoting
or escape characters: whitespace-separated tokens with empties dropped. -/
def shlex_split (command : String) : List String :=
  (words command).filter (fun t => t != "")

/-- The data the `raise CommandExecutionFailure(...)` call site in
`NMCLI._exec_command` passes to the exception: the shlex-split command,
the exit code and the captured stderr.  (The call also passes the
executor object, which holds no per-call output; nothing else is
passed, in particular not the captured stdout.) -/
structure CommandExecutionFailure where
  cmd : List String
  rc : Int
  err : String
deriving DecidableEq

/-- Errors the listing operations can surface: a propagated
`CommandExecutionFailure`, or a Python `IndexError` from subscripting a
too-short field list. -/
inductive NmcliError where
  | execFailure : CommandExecutionFailure → NmcliError
  | indexError : NmcliError
deriving DecidableEq

instance {ε α : Type} [DecidableEq ε] [DecidableEq α] :
    DecidableEq (Except ε α) := fun a b =>
  match a, b with
  | Except.ok x, Except.ok y =>
      if h : x = y then isTrue (by rw [h])
      else isFalse (fun hc => h (by cases hc; rfl))
  | Except.ok _, Except.error _ => isFalse (fun hc => Except.noConfusion hc)
  | Except.error _, Except.ok _ => isFalse (fun hc => Except.noConfusion hc)
  | Except.error x, Except.error y =>
      if h : x = y then isTrue (by rw [h])
      else isFalse (fun hc => h (by cases hc; rfl))

/-- Embedding of `NMCLI._exec_command`: shlex-splits the command, runs it through the
injected executor, raises `CommandExecutionFailure` on a non-zero exit
code and otherwise returns stdout.  (The source also logs the
command/rc/stdout/stderr before raising; logging is not modelled.) -/
def _exec_command (runner : List String → Int × String × String)
    (command : String) : Except CommandExecutionFailure String :=
  let split := shlex_split command
  let rc := (runner split).1
  let out := (runner split).2.1
  let err := (runner split).2.2
  if rc ≠ 0 then Except.error { cmd := split, rc := rc, err := err }
  else Except.ok out

/-- The nested helper `_get_str_value` of `NMCLI._common_options_builder`:
Python `"yes" if value is True else "no"`. -/
def _get_str_value (value : PyVal) : String :=
  if value = PyVal.pyBool true then "yes" else "no"

/-- Embedding of `NMCLI._common_options_builder`: the common option prefix
`type .. con-name .. ifname ..` with optional `autoconnect`/`save`
tokens appended when the corresponding parameter is not `None`. -/
def _common_options_builder (con_type con_name ifname : String)
    (auto_connect save : Option PyVal) : String :=
  let common_options :=
    "type " ++ con_type ++ " con-name " ++ con_name ++ " ifname " ++ ifname
  let common_options :=
    match auto_connect with
    | none => common_options
    | some value => common_options ++ " autoconnect " ++ _get_str_value value
  match save with
  | none => common_options
  | some value => common_options ++ " save " ++ _get_str_value value

/-- Embedding of `NMCLI._ip_options_builder`: appends the provided (truthy)
IP options in the fixed order used by the source. -/
def _ip_options_builder
    (ipv4_addr ipv4_gw ipv4_method ipv6_addr ipv6_gw ipv6_method :
      Option String) : String :=
  let command := ""
  let command :=
    if truthyStr ipv4_method then
      command ++ " ipv4.method " ++ ipv4_method.getD "" else command
  let command :=
    if truthyStr ipv6_method then
      command ++ " ipv6.method " ++ ipv6_method.getD "" else command
  let command :=
    if truthyStr ipv4_addr then
      command ++ " ipv4.addresses " ++ ipv4_addr.getD "" else command
  let command :=
    if truthyStr ipv4_gw then
      command ++ " ipv4.gateway " ++ ipv4_gw.getD "" else command
  let command :=
    if truthyStr ipv6_addr then
      command ++ " ipv6.addresses " ++ ipv6_addr.getD "" else command
  if truthyStr ipv6_gw then
    command ++ " ipv6.gateway " ++ ipv6_gw.getD "" else command

/-- The body of the type-options loop in `NMCLI._nmcli_cmd_builder`
(append one space-separated key/value pair to the command). -/
def type_options_step (command : String) (p : String × PyVal) : String :=
  command ++ " " ++ p.1 ++ " " ++ PyVal.render p.2

/-- Embedding of `NMCLI._nmcli_cmd_builder`: the base tokens (nmcli, the
object type, the operation), then the
bare name for DELETE/MODIFY or the common options for ADD, then the
type-specific option pairs in insertion order, then the IP options. -/
def _nmcli_cmd_builder (object_type operation name : String)
    (con_type ifname : Option String) (auto_connect save : Option PyVal)
    (ipv4_method ipv4_addr ipv4_gw ipv6_method ipv6_addr ipv6_gw :
      Option String)
    (type_options : List (String × PyVal)) : String :=
  let command := "nmcli " ++ object_type ++ " " ++ operation
  let command :=
    if operation = Operations.DELETE ∨ operation = Operations.MODIFY then
      command ++ " " ++ name
    else if operation = Operations.ADD then
      command ++ " " ++
        _common_options_builder (optStr con_type) name (optStr ifname)
          auto_connect save
    else command
  let command :=
    if type_options.isEmpty then command
    else type_options.foldl type_options_step command
  command ++
    _ip_options_builder ipv4_addr ipv4_gw ipv4_method ipv6_addr ipv6_gw
      ipv6_method

/-- Embedding of `NMCLI.add_ethernet_connection`, up to the point where the built
command string is handed to `_exec_command`: returns that command
string.  Note the truthiness guards on `mac` and `mtu`. -/
def add_ethernet_connection (name ifname : String)
    (auto_connect save : Option PyVal) (mac : Option String)
    (mtu : Option Int)
    (ipv4_method ipv4_addr ipv4_gw ipv6_method ipv6_addr ipv6_gw :
      Option String) : String :=
  let type_options : List (String × PyVal) := []
  let type_options :=
    if truthyStr mac then
      type_options ++ [("mac", PyVal.pyStr (mac.getD ""))] else type_options
  let type_options :=
    if truthyInt mtu then
      type_options ++ [("mtu", PyVal.pyInt (mtu.getD 0))] else type_options
  _nmcli_cmd_builder Objects.CONNECTION Operations.ADD name
    (some "ethernet") (some ifname) auto_connect save
    ipv4_method ipv4_addr ipv4_gw ipv6_method ipv6_addr ipv6_gw type_options

/-- Embedding of `NMCLI.add_bond`, up to the point where the built command string is
handed to `_exec_command`: returns that command string.  Note the
truthiness guards on `mode` and `miimon`. -/
def add_bond (con_name ifname : String) (mode : Option String)
    (miimon : Option Int) (auto_connect save : Option PyVal)
    (ipv4_method ipv4_addr ipv4_gw ipv6_method ipv6_addr ipv6_gw :
      Option String) : String :=
  let type_options : List (String × PyVal) := []
  let type_options :=
    if truthyStr mode then
      type_options ++ [("mode", PyVal.pyStr (mode.getD ""))] else type_options
  let type_options :=
    if truthyInt miimon then
      type_options ++ [("miimon", PyVal.pyInt (miimon.getD 0))]
    else type_options
  _nmcli_cmd_builder Objects.CONNECTION Operations.ADD con_name
    (some "bond") (some ifname) auto_connect save
    ipv4_method ipv4_addr ipv4_gw ipv6_method ipv6_addr ipv6_gw type_options

/-- Embedding of `NMCLI.add_vlan`, up to the point where the built command string is
handed to `_exec_command`: returns that command string.  `dev` and
`vlan_id` are put into the type options unconditionally; `mtu` is
guarded by truthiness. -/
def add_vlan (con_name dev : String) (vlan_id : Int) (mtu : Option Int)
    (auto_connect save : Option PyVal)
    (ipv4_method ipv4_addr ipv4_gw ipv6_method ipv6_addr ipv6_gw :
      Option String) : String :=
  let type_options : List (String × PyVal) :=
    [("dev", PyVal.pyStr dev), ("id", PyVal.pyInt vlan_id)]
  let type_options :=
    if truthyInt mtu then
      type_options ++ [("mtu", PyVal.pyInt (mtu.getD 0))] else type_options
  _nmcli_cmd_builder Objects.CONNECTION Operations.ADD con_name
    (some "vlan") (some dev) auto_connect save
    ipv4_method ipv4_addr ipv4_gw ipv6_method ipv6_addr ipv6_gw type_options

/-- The command string `NMCLI.get_all_connections` builds:
the nmcli terse show invocation for the connection object. -/
def connections_show_command : String :=
  "nmcli -t " ++ Objects.CONNECTION ++ " " ++ Operations.SHOW

/-- A parsed connection record, keyed as in `ConnectionDetails`. -/
structure Connection where
  name : String
  uuid : String
  type : String
  device : String
deriving DecidableEq

/-- The per-line parsing step of `NMCLI.get_all_connections`:
`properties = line.split(":")` and positional subscripts 0..3.  The
subscripts raise `IndexError` when the line has fewer than four
colon-separated fields; that is modelled by `none`. -/
def parse_connection_line (line : String) : Option Connection := do
  let properties := splitOnCh ':' line
  let nm ← properties.get? 0
  let uu ← properties.get? 1
  let ty ← properties.get? 2
  let dev ← properties.get? 3
  return { name := nm, uuid := uu, type := ty, device := dev }

/-- In-order traversal with failure, modelling a Python loop whose body
can raise: the first failing element aborts the whole computation. -/
def mapOptions {α β : Type} (f : α → Option β) : List α → Option (List β)
  | [] => some []
  | a :: as =>
      match f a, mapOptions f as with
      | some b, some bs => some (b :: bs)
      | _, _ => none

/-- Embedding of `NMCLI.get_all_connections`: runs the show command and parses each
output line into a record, propagating executor failures and the
`IndexError` a too-short line provokes. -/
def get_all_connections (runner : List String → Int × String × String) :
    Except NmcliError (List Connection) :=
  match _exec_command runner connections_show_command with
  | Except.error f => Except.error (NmcliError.execFailure f)
  | Except.ok out =>
      match mapOptions parse_connection_line (splitlines out) with
      | some connections => Except.ok connections
      | none => Except.error NmcliError.indexError

/-- The first command string `NMCLI.get_all_devices` builds:
`"nmcli -g GENERAL.DEVICE device show"` (device-name listing). -/
def devices_name_command : String :=
  "nmcli -g " ++ "GENERAL.DEVICE" ++ " " ++ Objects.DEVICE ++ " " ++
    Operations.SHOW

/-- The per-device detail command string `NMCLI.get_all_devices` builds:
the nmcli device show invocation restricted to the TYPE, HWADDR and MTU
fields, followed by the device name. -/
def device_detail_command (name : String) : String :=
  "nmcli -e no -g " ++ "GENERAL.TYPE" ++ "," ++ "GENERAL.HWADDR" ++ "," ++
    "GENERAL.MTU" ++ " " ++ Objects.DEVICE ++ " " ++ Operations.SHOW ++
    " " ++ name

/-- A parsed device record, keyed as in `DeviceDetails`. -/
structure Device where
  name : String
  type : String
  mac : String
  mtu : String
deriving DecidableEq

/-- The per-device loop of `NMCLI.get_all_devices`.  Besides the result it
returns the trace of argument vectors passed to the executor, in call
order, so that the number of executor invocations is observable; a
failure aborts the loop, keeping the calls made so far. -/
def devices_loop (runner : List String → Int × String × String) :
    List String → Except NmcliError (List Device) × List (List String)
  | [] => (Except.ok [], [])
  | name :: rest =>
      let split := shlex_split (device_detail_command name)
      let rc := (runner split).1
      let out := (runner split).2.1
      let err := (runner split).2.2
      if rc ≠ 0 then
        (Except.error (NmcliError.execFailure
          { cmd := split, rc := rc, err := err }), [split])
      else
        let properties := splitlines out
        match properties.get? 0, properties.get? 1, properties.get? 2 with
        | some ty, some mc, some mt =>
            match devices_loop runner rest with
            | (Except.ok ds, trace) =>
                (Except.ok (Device.mk name ty mc mt :: ds), split :: trace)
            | (Except.error e, trace) => (Except.error e, split :: trace)
        | _, _, _ => (Except.error NmcliError.indexError, [split])

/-- Embedding of `NMCLI.get_all_devices`: one name-listing call (blank lines filtered),
then one detail call per device name; the second component is the trace
of argument vectors passed to the executor, in call order. -/
def get_all_devices (runner : List String → Int × String × String) :
    Except NmcliError (List Device) × List (List String) :=
  let split := shlex_split devices_name_command
  let rc := (runner split).1
  let out := (runner split).2.1
  let err := (runner split).2.2
  if rc ≠ 0 then
    (Except.error (NmcliError.execFailure
      { cmd := split, rc := rc, err := err }), [split])
  else
    let device_names := (splitlines out).filter (fun n => n != "")
    match devices_loop runner device_names with
    | (res, trace) => (res, split :: trace)

/-- One step of appending an optional `key value` pair, the common shape
of the six conditional appends in `_ip_options_builder`. -/
def opt_pair_step (command : String) (p : String × Option String) : String :=
  if truthyStr p.2 then command ++ (" " ++ p.1 ++ " ") ++ p.2.getD ""
  else command

/-- The six IP option keys paired with their values, in the fixed order
the specification prescribes: ipv4.method, ipv6.method, ipv4.addresses,
ipv4.gateway, ipv6.addresses, ipv6.gateway. -/
def ipPairs (m4 m6 a4 g4 a6 g6 : Option String) :
    List (String × Option String) :=
  [("ipv4.method", m4), ("ipv6.method", m6), ("ipv4.addresses", a4),
   ("ipv4.gateway", g4), ("ipv6.addresses", a6), ("ipv6.gateway", g6)]

/-- The token list contributed by a list of optional `key value` pairs:
each pair contributes its key and value tokens exactly when its value is
provided and truthy. -/
def optTokens (ps : List (String × Option String)) : List String :=
  ps.flatMap fun p => if truthyStr p.2 then [p.1, p.2.getD ""] else []

/-- The IP option token list stated by the specification: the six pairs in
fixed order, each present iff its value is provided (truthy). -/
def ipTokens (m4 m6 a4 g4 a6 g6 : Option String) : List String :=
  optTokens (ipPairs m4 m6 a4 g4 a6 g6)

/-- The token list contributed by the type-specific options: one
`key value` token pair per entry, in insertion order. -/
def pairTokens (ps : List (String × PyVal)) : List String :=
  ps.flatMap fun p => [p.1, PyVal.render p.2]

/-- The token list contributed by an optional boolean common option:
nothing for `None`, `key yes|no` otherwise. -/
def optBoolTokens (key : String) : Option PyVal → List String
  | none => []
  | some v => [key, _get_str_value v]

/-- The six IP option key tokens. -/
def ipKeys : List String :=
  ["ipv4.method", "ipv6.method", "ipv4.addresses", "ipv4.gateway",
   "ipv6.addresses", "ipv6.gateway"]

/-- A well-behaved type-option key or option value: nonempty, space-free
and distinct from the optional-parameter key tokens. -/
def optionTok (s : String) : Prop :=
  s ≠ "" ∧ ' ' ∉ s.data ∧ s ∉ ("autoconnect" :: "save" :: ipKeys)

instance (s : String) : Decidable (optionTok s) := by
  unfold optionTok; infer_instance

/-- Tokens the builder may emit structurally; a plain user argument is
assumed distinct from all of them. -/
def builderTokens : List String :=
  ["nmcli", "connection", "device", "add", "modify", "delete", "show",
   "type", "con-name", "ifname", "autoconnect", "save", "yes", "no",
   "mac", "mtu", "mode", "miimon", "dev", "id", "master",
   "ipv4.method", "ipv6.method", "ipv4.addresses", "ipv4.gateway",
   "ipv6.addresses", "ipv6.gateway"]

/-- A plain user-supplied argument: nonempty, space-free and distinct from
every token the builder emits structurally. -/
def plainArg (s : String) : Prop :=
  s ≠ "" ∧ ' ' ∉ s.data ∧ s ∉ builderTokens

instance (s : String) : Decidable (plainArg s) := by
  unfold plainArg; infer_instance

/-- The record `get_all_connections` builds from one well-formed output
line: the four colon-separated fields mapped positionally to
name/uuid/type/device. -/
def connFromLine (line : String) : Connection :=
  { name := (splitOnCh ':' line).getD 0 ""
    uuid := (splitOnCh ':' line).getD 1 ""
    type := (splitOnCh ':' line).getD 2 ""
    device := (splitOnCh ':' line).getD 3 "" }

/-- The stdout of the detail call `get_all_devices` makes for one device
name, split into lines. -/
def device_detail_lines (runner : List String → Int × String × String)
    (nm : String) : List String :=
  splitlines ((runner (shlex_split (device_detail_command nm))).2.1)

/-- The record `get_all_devices` builds for one device name from the three
newline-delimited detail values (type, mac, mtu), in fixed order. -/
def deviceFromDetails (runner : List String → Int × String × String)
    (nm : String) : Device :=
  { name := nm
    type := (device_detail_lines runner nm).getD 0 ""
    mac := (device_detail_lines runner nm).getD 1 ""
    mtu := (device_detail_lines runner nm).getD 2 "" }

/-- A test executor that always succeeds with a fixed output. -/
def okRun : List String → Int × String × String :=
  fun _ => (0, "out-text", "")

/-- A test executor that always fails with exit code 1. -/
def failRun : List String → Int × String × String :=
  fun _ => (1, "stdout-text", "stderr-text")

/-- A failing test executor whose captured stdout is "stdout-A". -/
def failRunA : List String → Int × String × String :=
  fun _ => (1, "stdout-A", "shared-err")

/-- A failing test executor identical to `failRunA` except that its
captured stdout is "stdout-B". -/
def failRunB : List String → Int × String × String :=
  fun _ => (1, "stdout-B", "shared-err")

/-- A test executor returning the two-line connection listing from the
specification example. -/
def conRun : List String → Int × String × String :=
  fun _ =>
    (0, "lan:1234-uuid:ethernet:eth0\nwifi:5678-uuid:wifi:wlan0", "")

/-- A test executor returning a connection listing whose single line has
two colon-separated fields. -/
def conRunShort : List String → Int × String × String :=
  fun _ => (0, "only:two-fields", "")

/-- A test executor returning a connection listing whose single line has
one field (no colon at all). -/
def conRunOneField : List String → Int × String × String :=
  fun _ => (0, "justname", "")

/-- A test executor for the device listing: two device names, then a
three-line detail output per device. -/
def devRun : List String → Int × String × String :=
  fun args =>
    if args = shlex_split devices_name_command then (0, "eth0\nlo\n", "")
    else if args = shlex_split (device_detail_command "eth0") then
      (0, "ethernet\naa:bb:cc:dd:ee:ff\n1500", "")
    else if args = shlex_split (device_detail_command "lo") then
      (0, "loopback\n00:00:00:00:00:00\n65536", "")
    else (1, "", "unexpected")

theorem str_mk_data (s : String) : String.mk s.data = s := by
  cases s; rfl

theorem str_data_append (a b : String) : (a ++ b).data = a.data ++ b.data := by
  cases a; cases b; rfl

theorem str_append_assoc (a b c : String) : a ++ b ++ c = a ++ (b ++ c) := by
  cases a; cases b; cases c
  exact congrArg String.mk (List.append_assoc _ _ _)

theorem str_append_empty (c : String) : c ++ "" = c := by
  cases c
  exact congrArg String.mk (List.append_nil _)

theorem splitChAux_append_sep (sep : Char) (xs ys acc : List Char) :
    splitChAux sep (xs ++ sep :: ys) acc
      = splitChAux sep xs acc ++ splitChAux sep ys [] := by
  induction xs generalizing acc with
  | nil => simp [splitChAux]
  | cons c cs ih =>
      by_cases h : c = sep <;> simp [splitChAux, h, ih]

theorem splitChAux_sepFree (sep : Char) (xs acc : List Char)
    (h : sep ∉ xs) : splitChAux sep xs acc = [acc.reverse ++ xs] := by
  induction xs generalizing acc with
  | nil => simp [splitChAux]
  | cons c cs ih =>
      simp only [List.mem_cons, not_or] at h
      rw [splitChAux, if_neg (fun hc => h.1 hc.symm), ih _ h.2]
      simp

theorem words_cat (a b : String) : words (a ++ " " ++ b) = words a ++ words b := by
  unfold words splitOnCh
  rw [str_data_append, str_data_append,
      show (" " : String).data = [' '] from rfl,
      List.append_assoc,
      show [' '] ++ b.data = ' ' :: b.data from rfl,
      splitChAux_append_sep]
  simp

theorem words_spaceFree (s : String) (h : ' ' ∉ s.data) : words s = [s] := by
  unfold words splitOnCh
  rw [splitChAux_sepFree ' ' s.data [] h]
  simp [str_mk_data]

theorem words_append_pair (c k v : String) (hk : ' ' ∉ k.data)
    (hv : ' ' ∉ v.data) :
    words (c ++ (" " ++ k ++ " ") ++ v) = words c ++ [k, v] := by
  have h1 : c ++ (" " ++ k ++ " ") ++ v = (c ++ " " ++ k) ++ " " ++ v := by
    simp [str_append_assoc]
  rw [h1, words_cat, words_cat, words_spaceFree k hk, words_spaceFree v hv]
  simp

theorem _get_str_value_spaceFree (v : PyVal) :
    ' ' ∉ (_get_str_value v).data := by
  unfold _get_str_value
  split <;> decide

theorem _get_str_value_nonempty (v : PyVal) : _get_str_value v ≠ "" := by
  unfold _get_str_value
  split <;> decide

theorem words_common_options (con_type con_name ifname : String)
    (ac sv : Option PyVal)
    (h1 : ' ' ∉ con_type.data) (h2 : ' ' ∉ con_name.data)
    (h3 : ' ' ∉ ifname.data) :
    words (_common_options_builder con_type con_name ifname ac sv)
      = ["type", con_type, "con-name", con_name, "ifname", ifname]
        ++ optBoolTokens "autoconnect" ac ++ optBoolTokens "save" sv := by
  have hbase :
      words ("type " ++ con_type ++ " con-name " ++ con_name ++ " ifname "
          ++ ifname)
        = ["type", con_type, "con-name", con_name, "ifname", ifname] := by
    rw [show (" ifname " : String) = " " ++ "ifname" ++ " " from rfl,
        words_append_pair _ "ifname" ifname (by decide) h3,
        show (" con-name " : String) = " " ++ "con-name" ++ " " from rfl,
        words_append_pair _ "con-name" con_name (by decide) h2,
        show ("type " : String) = "type" ++ " " from rfl,
        words_cat, words_spaceFree "type" (by decide),
        words_spaceFree con_type h1]
    simp
  cases ac with
  | none =>
      cases sv with
      | none =>
          simp only [_common_options_builder, optBoolTokens]
          simpa using hbase
      | some v =>
          simp only [_common_options_builder, optBoolTokens]
          rw [show (" save " : String) = " " ++ "save" ++ " " from rfl,
              words_append_pair _ "save" _ (by decide)
                (_get_str_value_spaceFree v), hbase]
          simp
  | some v =>
      cases sv with
      | none =>
          simp only [_common_options_builder, optBoolTokens]
          rw [show (" autoconnect " : String) = " " ++ "autoconnect" ++ " "
                from rfl,
              words_append_pair _ "autoconnect" _ (by decide)
                (_get_str_value_spaceFree v), hbase]
          simp
      | some w =>
          simp only [_common_options_builder, optBoolTokens]
          rw [show (" save " : String) = " " ++ "save" ++ " " from rfl,
              words_append_pair _ "save" _ (by decide)
                (_get_str_value_spaceFree w),
              show (" autoconnect " : String) = " " ++ "autoconnect" ++ " "
                from rfl,
              words_append_pair _ "autoconnect" _ (by decide)
                (_get_str_value_spaceFree v), hbase]

theorem ip_options_eq_fold (a4 g4 m4 a6 g6 m6 : Option String) :
    _ip_options_builder a4 g4 m4 a6 g6 m6
      = (ipPairs m4 m6 a4 g4 a6 g6).foldl opt_pair_step "" := rfl

theorem opt_pair_step_append (c acc : String) (p : String × Option String) :
    c ++ opt_pair_step acc p = opt_pair_step (c ++ acc) p := by
  unfold opt_pair_step
  split
  · simp [str_append_assoc]
  · rfl

theorem foldl_opt_pair_append (ps : List (String × Option String)) :
    ∀ c acc : String,
      c ++ ps.foldl opt_pair_step acc = ps.foldl opt_pair_step (c ++ acc) := by
  induction ps with
  | nil => intro c acc; rfl
  | cons p ps ih =>
      intro c acc
      simp only [List.foldl_cons]
      rw [ih, opt_pair_step_append]

theorem words_opt_pair_step (c k : String) (v : Option String)
    (hk : ' ' ∉ k.data)
    (hv : truthyStr v = true → ' ' ∉ (v.getD "").data) :
    words (opt_pair_step c (k, v))
      = words c ++ (if truthyStr v then [k, v.getD ""] else []) := by
  cases v with
  | none => simp [opt_pair_step, truthyStr]
  | some x =>
      by_cases hx : x = ""
      · simp [opt_pair_step, truthyStr, hx]
      · have ht : truthyStr (some x) = true := by simp [truthyStr, hx]
        simp only [opt_pair_step, ht, if_true, Option.getD_some]
        rw [words_append_pair c k x hk (hv ht)]

theorem words_foldl_opt_pair (ps : List (String × Option String)) :
    ∀ c : String,
      (∀ p ∈ ps, ' ' ∉ p.1.data ∧
        (truthyStr p.2 = true → ' ' ∉ (p.2.getD "").data)) →
      words (ps.foldl opt_pair_step c) = words c ++ optTokens ps := by
  induction ps with
  | nil => intro c _; simp [optTokens]
  | cons p ps ih =>
      intro c h
      obtain ⟨k, v⟩ := p
      obtain ⟨hk, hv⟩ := h (k, v) (List.mem_cons_self _ _)
      simp only [List.foldl_cons]
      rw [ih _ (fun q hq => h q (List.mem_cons_of_mem _ hq)),
          words_opt_pair_step c k v hk hv]
      simp [optTokens]

theorem words_ip_append (c : String) (a4 g4 m4 a6 g6 m6 : Option String)
    (hip : ∀ p ∈ ipPairs m4 m6 a4 g4 a6 g6,
      truthyStr p.2 = true → ' ' ∉ (p.2.getD "").data) :
    words (c ++ _ip_options_builder a4 g4 m4 a6 g6 m6)
      = words c ++ ipTokens m4 m6 a4 g4 a6 g6 := by
  rw [ip_options_eq_fold, foldl_opt_pair_append, str_append_empty,
      words_foldl_opt_pair _ c]
  · rfl
  intro p hp
  refine ⟨?_, hip p hp⟩
  simp only [ipPairs, List.mem_cons, List.not_mem_nil, or_false] at hp
  rcases hp with rfl | rfl | rfl | rfl | rfl | rfl
  · exact (by decide : ' ' ∉ ("ipv4.method" : String).data)
  · exact (by decide : ' ' ∉ ("ipv6.method" : String).data)
  · exact (by decide : ' ' ∉ ("ipv4.addresses" : String).data)
  · exact (by decide : ' ' ∉ ("ipv4.gateway" : String).data)
  · exact (by decide : ' ' ∉ ("ipv6.addresses" : String).data)
  · exact (by decide : ' ' ∉ ("ipv6.gateway" : String).data)

theorem words_type_options_step (c : String) (p : String × PyVal)
    (hk : ' ' ∉ p.1.data) (hv : ' ' ∉ (PyVal.render p.2).data) :
    words (type_options_step c p)
      = words c ++ [p.1, PyVal.render p.2] := by
  unfold type_options_step
  rw [words_cat, words_cat, words_spaceFree _ hk, words_spaceFree _ hv]
  simp

theorem words_foldl_type_options (ps : List (String × PyVal)) :
    ∀ c : String,
      (∀ p ∈ ps, ' ' ∉ p.1.data ∧ ' ' ∉ (PyVal.render p.2).data) →
      words (ps.foldl type_options_step c) = words c ++ pairTokens ps := by
  induction ps with
  | nil => intro c _; simp [pairTokens]
  | cons p ps ih =>
      intro c h
      obtain ⟨hk, hv⟩ := h p (List.mem_cons_self _ _)
      simp only [List.foldl_cons]
      rw [ih _ (fun q hq => h q (List.mem_cons_of_mem _ hq)),
          words_type_options_step c p hk hv]
      simp [pairTokens]

theorem words_nmcli_add (ot nm ct ifn : String) (ac sv : Option PyVal)
    (m4 a4 g4 m6 a6 g6 : Option String) (topts : List (String × PyVal))
    (hot : ' ' ∉ ot.data) (hnm : ' ' ∉ nm.data) (hct : ' ' ∉ ct.data)
    (hifn : ' ' ∉ ifn.data)
    (htopts : ∀ p ∈ topts, ' ' ∉ p.1.data ∧ ' ' ∉ (PyVal.render p.2).data)
    (hip : ∀ p ∈ ipPairs m4 m6 a4 g4 a6 g6,
      truthyStr p.2 = true → ' ' ∉ (p.2.getD "").data) :
    words (_nmcli_cmd_builder ot "add" nm (some ct) (some ifn) ac sv
        m4 a4 g4 m6 a6 g6 topts)
      = ["nmcli", ot, "add", "type", ct, "con-name", nm, "ifname", ifn]
        ++ optBoolTokens "autoconnect" ac ++ optBoolTokens "save" sv
        ++ pairTokens topts ++ ipTokens m4 m6 a4 g4 a6 g6 := by
  have hbase1 : words ("nmcli " ++ ot ++ " " ++ "add") = ["nmcli", ot, "add"] := by
    rw [words_cat, show ("nmcli " : String) = "nmcli" ++ " " from rfl,
        words_cat, words_spaceFree "nmcli" (by decide), words_spaceFree ot hot,
        words_spaceFree "add" (by decide)]
    simp
  have hcommon :
      words (("nmcli " ++ ot ++ " " ++ "add") ++ " " ++
          _common_options_builder (optStr (some ct)) nm (optStr (some ifn))
            ac sv)
        = ["nmcli", ot, "add"] ++
            (["type", ct, "con-name", nm, "ifname", ifn]
              ++ optBoolTokens "autoconnect" ac
              ++ optBoolTokens "save" sv) := by
    rw [words_cat, hbase1]
    simp only [optStr]
    rw [words_common_options ct nm ifn ac sv hct hnm hifn]
  simp only [_nmcli_cmd_builder, Operations.DELETE, Operations.MODIFY,
    Operations.ADD]
  rw [if_neg (show ¬("add" = "delete" ∨ "add" = "modify") by decide)]
  simp only [if_true]
  cases topts with
  | nil =>
      simp only [List.isEmpty_nil, if_true]
      rw [words_ip_append _ _ _ _ _ _ _ hip, hcommon]
      simp [pairTokens]
  | cons p ps =>
      simp only [List.isEmpty_cons]
      rw [if_neg (by decide), words_ip_append _ _ _ _ _ _ _ hip,
          words_foldl_type_options _ _ htopts, hcommon]
      simp

theorem plainArg_ne (s t : String) (hs : plainArg s)
    (ht : t ∈ builderTokens) : s ≠ t :=
  fun h => hs.2.2 (h ▸ ht)

theorem truthyStr_some {o : Option String} (h : truthyStr o = true) :
    ∃ v, o = some v ∧ v ≠ "" := by
  cases o with
  | none => simp [truthyStr] at h
  | some v => exact ⟨v, rfl, by simpa [truthyStr] using h⟩

theorem mem_pairTokens {x : String} {ps : List (String × PyVal)} :
    x ∈ pairTokens ps ↔ ∃ p ∈ ps, x = p.1 ∨ x = PyVal.render p.2 := by
  simp [pairTokens]

theorem mem_ite_nil {α : Type} (b : Bool) (l : List α) (x : α) :
    x ∈ (if b then l else []) ↔ b = true ∧ x ∈ l := by
  cases b <;> simp

theorem mem_optTokens {x : String} {ps : List (String × Option String)} :
    x ∈ optTokens ps ↔
      ∃ p ∈ ps, truthyStr p.2 = true ∧ (x = p.1 ∨ x = p.2.getD "") := by
  simp [optTokens, mem_ite_nil]

theorem mem_ipTokens_cases {x : String} {m4 m6 a4 g4 a6 g6 : Option String}
    (hx : x ∈ ipTokens m4 m6 a4 g4 a6 g6) :
    x ∈ ipKeys ∨ ∃ p ∈ ipPairs m4 m6 a4 g4 a6 g6, p.2 = some x := by
  rw [ipTokens, mem_optTokens] at hx
  obtain ⟨p, hp, ht, hcase⟩ := hx
  rcases hcase with h1 | h2
  · left
    simp only [ipPairs, List.mem_cons, List.not_mem_nil, or_false] at hp
    rcases hp with rfl | rfl | rfl | rfl | rfl | rfl
    · rw [h1]; exact (by decide : ("ipv4.method" : String) ∈ ipKeys)
    · rw [h1]; exact (by decide : ("ipv6.method" : String) ∈ ipKeys)
    · rw [h1]; exact (by decide : ("ipv4.addresses" : String) ∈ ipKeys)
    · rw [h1]; exact (by decide : ("ipv4.gateway" : String) ∈ ipKeys)
    · rw [h1]; exact (by decide : ("ipv6.addresses" : String) ∈ ipKeys)
    · rw [h1]; exact (by decide : ("ipv6.gateway" : String) ∈ ipKeys)
  · right
    obtain ⟨v, hv, _⟩ := truthyStr_some ht
    refine ⟨p, hp, ?_⟩
    rw [hv, h2, hv]
    rfl

theorem parse_connection_line_of_four (line a b c d : String)
    (h : splitOnCh ':' line = [a, b, c, d]) :
    parse_connection_line line = some (Connection.mk a b c d) := by
  simp [parse_connection_line, h]

theorem parse_connection_line_short (line : String)
    (h : (splitOnCh ':' line).length < 4) :
    parse_connection_line line = none := by
  rcases hl : splitOnCh ':' line with _ | ⟨a, _ | ⟨b, _ | ⟨c, _ | ⟨d, tl⟩⟩⟩⟩
  · simp [parse_connection_line, hl]
  · simp [parse_connection_line, hl]
  · simp [parse_connection_line, hl]
  · simp [parse_connection_line, hl]
  · rw [hl] at h
    simp at h
    omega

theorem mapOptions_map {α β : Type} (f : α → Option β) (g : α → β)
    (L : List α) (h : ∀ l ∈ L, f l = some (g l)) :
    mapOptions f L = some (L.map g) := by
  induction L with
  | nil => rfl
  | cons a as ih =>
      simp only [mapOptions, h a (List.mem_cons_self _ _),
        ih (fun l hl => h l (List.mem_cons_of_mem _ hl)), List.map_cons]

theorem mapOptions_none {α β : Type} (f : α → Option β) (L : List α)
    (l : α) (hl : l ∈ L) (h : f l = none) : mapOptions f L = none := by
  induction L with
  | nil => cases hl
  | cons a as ih =>
      rcases List.mem_cons.mp hl with rfl | hmem
      · simp [mapOptions, h]
      · cases hfa : f a <;> simp [mapOptions, hfa, ih hmem]

theorem devices_loop_spec (runner : List String → Int × String × String)
    (names : List String)
    (h : ∀ nm ∈ names,
      (runner (shlex_split (device_detail_command nm))).1 = 0
      ∧ 3 ≤ (device_detail_lines runner nm).length) :
    devices_loop runner names
      = (Except.ok (names.map (deviceFromDetails runner)),
         names.map (fun nm => shlex_split (device_detail_command nm))) := by
  induction names with
  | nil => rfl
  | cons nm rest ih =>
      obtain ⟨hrc, hlen⟩ := h nm (List.mem_cons_self _ _)
      have hrest := ih (fun q hq => h q (List.mem_cons_of_mem _ hq))
      rcases hl : device_detail_lines runner nm
        with _ | ⟨t0, _ | ⟨t1, _ | ⟨t2, tl⟩⟩⟩
      · rw [hl] at hlen; simp at hlen
      · rw [hl] at hlen; simp at hlen
      · rw [hl] at hlen; simp at hlen
      · have hl2 : splitlines
            ((runner (shlex_split (device_detail_command nm))).2.1)
            = t0 :: t1 :: t2 :: tl := hl
        have hdev : deviceFromDetails runner nm = Device.mk nm t0 t1 t2 := by
          simp [deviceFromDetails, hl]
        simp only [devices_loop, hrc, ne_eq, not_true_eq_false, if_false,
          hl2, List.get?, hrest, hdev, List.map_cons]

/-- C1 (amended): for every command, if the executor returns exit code 0
then `_exec_command` returns the captured stdout unchanged; if the exit
code is non-zero, it raises a `CommandExecutionFailure` carrying the
shlex-tokenized command, the exit code and the captured stderr (the
captured stdout is only logged, not carried by the failure). -/
theorem C1_exec_contract (runner : List String → Int × String × String)
    (command : String) :
    ((runner (shlex_split command)).1 = 0 →
      _exec_command runner command
        = Except.ok (runner (shlex_split command)).2.1) ∧
    ((runner (shlex_split command)).1 ≠ 0 →
      _exec_command runner command
        = Except.error
            { cmd := shlex_split command,
              rc := (runner (shlex_split command)).1,
              err := (runner (shlex_split command)).2.2 }) := by
  constructor <;> intro h <;> simp [_exec_command, h]

/-- Witness for C1: a concrete succeeding run returns its stdout, and a
concrete failing run raises the failure with command tokens, exit code 1
and stderr. -/
theorem C1_exec_contract_witness :
    _exec_command okRun "nmcli connection show" = Except.ok "out-text"
    ∧ _exec_command failRun "nmcli connection show"
        = Except.error
            (CommandExecutionFailure.mk ["nmcli", "connection", "show"] 1
              "stderr-text") := by
  constructor
  · exact (C1_exec_contract okRun "nmcli connection show").1 rfl
  · exact ((C1_exec_contract failRun "nmcli connection show").2
      (by decide)).trans (by decide)

/-- C1 counterexample: two executors that differ only in their captured
stdout produce equal failures, so the raised failure cannot carry the
captured stdout; it consists of the tokenized command, the exit code and
the stderr only. -/
theorem C1_stdout_not_carried :
    _exec_command failRunA "nmcli x" = _exec_command failRunB "nmcli x"
    ∧ _exec_command failRunA "nmcli x"
        = Except.error
            (CommandExecutionFailure.mk ["nmcli", "x"] 1 "shared-err") := by
  exact ⟨by decide, by decide⟩

/-- C2: evaluating the add operations at zero-valued optional numeric
parameters: a provided `mtu = 0` (ethernet, vlan) and `miimon = 0`
(bond) are silently dropped by the truthiness guards — no `mtu 0` or
`miimon 0` pair appears — while a vlan id of 0 is rendered, because the
id is stored unconditionally. -/
theorem C2_zero_values :
    add_vlan "v0" "eth1" 5 (some 0) none none none none none none none none
      = "nmcli connection add type vlan con-name v0 ifname eth1 dev eth1 id 5"
    ∧ add_bond "b0" "bond0" none (some 0) none none none none none none
        none none
      = "nmcli connection add type bond con-name b0 ifname bond0"
    ∧ add_ethernet_connection "e0" "eth0" none none none (some 0) none none
        none none none none
      = "nmcli connection add type ethernet con-name e0 ifname eth0"
    ∧ add_vlan "v0" "eth1" 0 none none none none none none none none none
      = "nmcli connection add type vlan con-name v0 ifname eth1 dev eth1 id 0"
    := by
  exact ⟨by decide, by decide, by decide, by decide⟩

/-- C5 counterexample: `ipv4_addr` provided as the empty string is
dropped by the truthiness guard, so a provided value yields no
`ipv4.addresses` pair; the claimed "appears iff provided" fails. -/
theorem C5_provided_empty_dropped :
    _ip_options_builder (some "") none none none none none = "" := by
  decide

/-- C5 (amended): the IP-options suffix appended to any command
contributes exactly the token list `ipTokens`: the six pairs in the
fixed order ipv4.method, ipv6.method, ipv4.addresses, ipv4.gateway,
ipv6.addresses, ipv6.gateway, each `key value` pair present iff its
value is provided and non-empty (Python-truthy). -/
theorem C5_ip_fixed_order (c : String) (a4 g4 m4 a6 g6 m6 : Option String)
    (hip : ∀ p ∈ ipPairs m4 m6 a4 g4 a6 g6,
      truthyStr p.2 = true → ' ' ∉ (p.2.getD "").data) :
    words (c ++ _ip_options_builder a4 g4 m4 a6 g6 m6)
      = words c ++ ipTokens m4 m6 a4 g4 a6 g6 :=
  words_ip_append c a4 g4 m4 a6 g6 m6 hip

/-- Witness for C5: a concrete command with all six IP options provided
carries the six pairs in the fixed order. -/
theorem C5_ip_fixed_order_witness :
    words ("nmcli connection add type dummy con-name d0 ifname d1" ++
        _ip_options_builder (some "192.168.5.2/24") (some "192.168.5.1")
          (some "manual") (some "fe80::7/64") (some "fe80::1")
          (some "manual"))
      = ["nmcli", "connection", "add", "type", "dummy", "con-name", "d0",
         "ifname", "d1", "ipv4.method", "manual", "ipv6.method", "manual",
         "ipv4.addresses", "192.168.5.2/24", "ipv4.gateway", "192.168.5.1",
         "ipv6.addresses", "fe80::7/64", "ipv6.gateway", "fe80::1"] := by
  exact (C5_ip_fixed_order "nmcli connection add type dummy con-name d0 ifname d1"
      (some "192.168.5.2/24") (some "192.168.5.1") (some "manual")
      (some "fe80::7/64") (some "fe80::1") (some "manual")
      (by decide)).trans (by decide)

/-- C9 counterexample: a listing whose single line has two
colon-separated fields makes `get_all_connections` surface the index
error; it does not return records (no silent empty record). -/
theorem C9_short_line_errors :
    get_all_connections conRunShort
      = Except.error NmcliError.indexError := by
  decide

/-- C9 (amended): whenever the listing output contains a line with fewer
than four colon-separated fields, `get_all_connections` raises an index
error (from the positional subscripts) instead of producing an empty
record for that line. -/
theorem C9_short_line_index_error
    (runner : List String → Int × String × String) (out err : String)
    (hrun : runner (shlex_split connections_show_command) = (0, out, err))
    (hbad : ∃ line ∈ splitlines out, (splitOnCh ':' line).length < 4) :
    get_all_connections runner = Except.error NmcliError.indexError := by
  obtain ⟨line, hline, hlen⟩ := hbad
  have hexec : _exec_command runner connections_show_command
      = Except.ok out := by
    simp [_exec_command, hrun]
  simp only [get_all_connections, hexec]
  rw [mapOptions_none parse_connection_line _ line hline
    (parse_connection_line_short line hlen)]

/-- Witness for C9: a one-field line yields the index error. -/
theorem C9_short_line_index_error_witness :
    get_all_connections conRunOneField
      = Except.error NmcliError.indexError := by
  exact C9_short_line_index_error conRunOneField "justname" "" rfl
    ⟨"justname", by decide, by decide⟩

/-- C7: when every line of the listing output has exactly four
colon-separated fields, `get_all_connections` returns one record per
line, in line order, mapping the four fields positionally to
name/uuid/type/device. -/
theorem C7_connection_parsing
    (runner : List String → Int × String × String) (out err : String)
    (hrun : runner (shlex_split connections_show_command) = (0, out, err))
    (hlines : ∀ line ∈ splitlines out, (splitOnCh ':' line).length = 4) :
    get_all_connections runner
      = Except.ok ((splitlines out).map connFromLine) := by
  have hexec : _exec_command runner connections_show_command
      = Except.ok out := by
    simp [_exec_command, hrun]
  have hpl : ∀ l ∈ splitlines out,
      parse_connection_line l = some (connFromLine l) := by
    intro l hl
    have h4 := hlines l hl
    rcases hsp : splitOnCh ':' l
      with _ | ⟨a, _ | ⟨b, _ | ⟨c, _ | ⟨d, _ | ⟨e, tl⟩⟩⟩⟩⟩
    · rw [hsp] at h4; simp at h4
    · rw [hsp] at h4; simp at h4
    · rw [hsp] at h4; simp at h4
    · rw [hsp] at h4; simp at h4
    · rw [parse_connection_line_of_four l a b c d hsp]
      simp [connFromLine, hsp]
    · rw [hsp] at h4; simp at h4
  simp only [get_all_connections, hexec]
  rw [mapOptions_map parse_connection_line connFromLine _ hpl]

/-- Witness for C7: the two-line example output from the specification yields
exactly the two records. -/
theorem C7_connection_parsing_witness :
    get_all_connections conRun
      = Except.ok [Connection.mk "lan" "1234-uuid" "ethernet" "eth0",
                   Connection.mk "wifi" "5678-uuid" "wifi" "wlan0"] := by
  exact (C7_connection_parsing conRun
    "lan:1234-uuid:ethernet:eth0\nwifi:5678-uuid:wifi:wlan0" "" rfl
    (by decide)).trans (by decide)

/-- C8: when the name-listing call succeeds and every per-device detail
call succeeds with at least three output lines, `get_all_devices`
performs exactly `1 + N` executor invocations — the name-listing call
followed by one detail call per device, in order — and returns one
record per device, built from the name and the first three
newline-delimited detail values (type, mac, mtu) in fixed order. -/
theorem C8_device_round_trips
    (runner : List String → Int × String × String) (out1 err1 : String)
    (h1 : runner (shlex_split devices_name_command) = (0, out1, err1))
    (hdet : ∀ nm ∈ (splitlines out1).filter (fun n => n != ""),
      (runner (shlex_split (device_detail_command nm))).1 = 0
      ∧ 3 ≤ (device_detail_lines runner nm).length) :
    get_all_devices runner
      = (Except.ok (((splitlines out1).filter (fun n => n != "")).map
            (deviceFromDetails runner)),
         shlex_split devices_name_command ::
           ((splitlines out1).filter (fun n => n != "")).map
             (fun nm => shlex_split (device_detail_command nm)))
    ∧ (get_all_devices runner).2.length
        = 1 + ((splitlines out1).filter (fun n => n != "")).length := by
  have hmain : get_all_devices runner
      = (Except.ok (((splitlines out1).filter (fun n => n != "")).map
            (deviceFromDetails runner)),
         shlex_split devices_name_command ::
           ((splitlines out1).filter (fun n => n != "")).map
             (fun nm => shlex_split (device_detail_command nm))) := by
    simp only [get_all_devices, h1, ne_eq, not_true_eq_false, if_false,
      devices_loop_spec runner _ hdet]
  exact ⟨hmain, by rw [hmain]; simp [Nat.add_comm]⟩

/-- Witness for C8: two device names lead to exactly three executor
invocations (one listing plus two detail calls) and two records. -/
theorem C8_device_round_trips_witness :
    get_all_devices devRun
      = (Except.ok [Device.mk "eth0" "ethernet" "aa:bb:cc:dd:ee:ff" "1500",
                    Device.mk "lo" "loopback" "00:00:00:00:00:00" "65536"],
         [["nmcli", "-g", "GENERAL.DEVICE", "device", "show"],
          ["nmcli", "-e", "no", "-g",
           "GENERAL.TYPE,GENERAL.HWADDR,GENERAL.MTU", "device", "show",
           "eth0"],
          ["nmcli", "-e", "no", "-g",
           "GENERAL.TYPE,GENERAL.HWADDR,GENERAL.MTU", "device", "show",
           "lo"]])
    ∧ (get_all_devices devRun).2.length = 3 := by
  have h := C8_device_round_trips devRun "eth0\nlo\n" "" rfl (by
    intro nm hnm
    rw [show (splitlines "eth0\nlo\n").filter (fun n => n != "")
        = ["eth0", "lo"] from by decide] at hnm
    rcases List.mem_cons.mp hnm with rfl | hnm2
    · exact ⟨rfl, by decide⟩
    rcases List.mem_cons.mp hnm2 with rfl | hnm3
    · exact ⟨rfl, by decide⟩
    cases hnm3)
  refine ⟨h.1.trans (by decide), ?_⟩
  rw [h.1]
  decide

/-- C10: for an ADD command with `auto_connect` set to any non-None
value, the rendered token is `yes` exactly when the value is the boolean
literal True (Python identity test `value is True`), and `no` for every
other value — e.g. the truthy integer 1 renders as `no`. -/
theorem C10_bool_identity_rendering (ct nm ifn : String) (v : PyVal)
    (hct : ' ' ∉ ct.data) (hnm : ' ' ∉ nm.data) (hifn : ' ' ∉ ifn.data) :
    words (_common_options_builder ct nm ifn (some v) none)
      = ["type", ct, "con-name", nm, "ifname", ifn, "autoconnect",
         if v = PyVal.pyBool true then "yes" else "no"] := by
  rw [words_common_options ct nm ifn (some v) none hct hnm hifn]
  simp [optBoolTokens, _get_str_value]

/-- Witness for C10: the truthy non-boolean value 1 renders as `no`, not
`yes`. -/
theorem C10_bool_identity_rendering_witness :
    words (_common_options_builder "ethernet" "c1" "eth0"
        (some (PyVal.pyInt 1)) none)
      = ["type", "ethernet", "con-name", "c1", "ifname", "eth0",
         "autoconnect", "no"] := by
  exact (C10_bool_identity_rendering "ethernet" "c1" "eth0"
    (PyVal.pyInt 1) (by decide) (by decide) (by decide)).trans (by decide)

/-- C4: for any ADD command with a non-empty type-options mapping and at
least one IP option provided, the token list of the built command is
exactly: the common options (type/con-name/ifname, then the optional
autoconnect/save tokens), then all type-option tokens, then all
IP-option tokens — so every type-option token appears before every
IP-option token. -/
theorem C4_type_before_ip (nm ct ifn : String) (ac sv : Option PyVal)
    (m4 a4 g4 m6 a6 g6 : Option String) (topts : List (String × PyVal))
    (hnm : ' ' ∉ nm.data) (hct : ' ' ∉ ct.data) (hifn : ' ' ∉ ifn.data)
    (htopts : ∀ p ∈ topts, ' ' ∉ p.1.data ∧ ' ' ∉ (PyVal.render p.2).data)
    (hip : ∀ p ∈ ipPairs m4 m6 a4 g4 a6 g6,
      truthyStr p.2 = true → ' ' ∉ (p.2.getD "").data)
    (hne : topts ≠ [])
    (hprov : truthyStr m4 = true ∨ truthyStr m6 = true
      ∨ truthyStr a4 = true ∨ truthyStr g4 = true
      ∨ truthyStr a6 = true ∨ truthyStr g6 = true) :
    words (_nmcli_cmd_builder "connection" "add" nm (some ct) (some ifn)
        ac sv m4 a4 g4 m6 a6 g6 topts)
      = (["nmcli", "connection", "add", "type", ct, "con-name", nm,
          "ifname", ifn]
          ++ optBoolTokens "autoconnect" ac ++ optBoolTokens "save" sv)
        ++ pairTokens topts ++ ipTokens m4 m6 a4 g4 a6 g6 := by
  rw [words_nmcli_add "connection" nm ct ifn ac sv m4 a4 g4 m6 a6 g6 topts
    (by decide) hnm hct hifn htopts hip]

/-- Witness for C4: a concrete ADD with one type option and one IP option
puts the `mac` pair strictly before the `ipv4.method` pair. -/
theorem C4_type_before_ip_witness :
    words (_nmcli_cmd_builder "connection" "add" "c4" (some "ethernet")
        (some "eth2") none none (some "auto") none none none none none
        [("mac", PyVal.pyStr "aa:bb:cc:dd:ee:01")])
      = ["nmcli", "connection", "add", "type", "ethernet", "con-name",
         "c4", "ifname", "eth2", "mac", "aa:bb:cc:dd:ee:01",
         "ipv4.method", "auto"] := by
  exact (C4_type_before_ip "c4" "ethernet" "eth2" none none (some "auto")
    none none none none none [("mac", PyVal.pyStr "aa:bb:cc:dd:ee:01")]
    (by decide) (by decide) (by decide) (by decide) (by decide)
    (by decide) (by decide)).trans (by decide)

theorem key_not_mem_ipTokens (t : String)
    (m4 a4 g4 m6 a6 g6 : Option String)
    (hip : ∀ p ∈ ipPairs m4 m6 a4 g4 a6 g6,
      truthyStr p.2 = true → optionTok (p.2.getD ""))
    (hkeys : ∀ p ∈ ipPairs m4 m6 a4 g4 a6 g6, t = p.1 →
      truthyStr p.2 = false)
    (htok : t ∈ ("autoconnect" :: "save" :: ipKeys)) :
    t ∉ ipTokens m4 m6 a4 g4 a6 g6 := by
  intro hmem
  rw [ipTokens, mem_optTokens] at hmem
  obtain ⟨p, hp, htr, hcase⟩ := hmem
  rcases hcase with h1 | h2
  · rw [hkeys p hp h1] at htr
    cases htr
  · exact (hip p hp htr).2.2 (h2 ▸ htok)

theorem not_ip_key_truthy_false (t : String)
    (m4 a4 g4 m6 a6 g6 : Option String) (hti : t ∉ ipKeys) :
    ∀ p ∈ ipPairs m4 m6 a4 g4 a6 g6, t = p.1 → truthyStr p.2 = false := by
  intro p hp h
  exfalso
  apply hti
  simp only [ipPairs, List.mem_cons, List.not_mem_nil, or_false] at hp
  rcases hp with rfl | rfl | rfl | rfl | rfl | rfl
  · rw [h]; exact (by decide : ("ipv4.method" : String) ∈ ipKeys)
  · rw [h]; exact (by decide : ("ipv6.method" : String) ∈ ipKeys)
  · rw [h]; exact (by decide : ("ipv4.addresses" : String) ∈ ipKeys)
  · rw [h]; exact (by decide : ("ipv4.gateway" : String) ∈ ipKeys)
  · rw [h]; exact (by decide : ("ipv6.addresses" : String) ∈ ipKeys)
  · rw [h]; exact (by decide : ("ipv6.gateway" : String) ∈ ipKeys)

theorem key_not_mem_words_add (t nm ct ifn : String)
    (m4 a4 g4 m6 a6 g6 : Option String) (topts : List (String × PyVal))
    (hnm : plainArg nm) (hct : plainArg ct) (hifn : plainArg ifn)
    (htopts : ∀ p ∈ topts, optionTok p.1 ∧ optionTok (PyVal.render p.2))
    (hip : ∀ p ∈ ipPairs m4 m6 a4 g4 a6 g6,
      truthyStr p.2 = true → optionTok (p.2.getD ""))
    (htok : t ∈ ("autoconnect" :: "save" :: ipKeys))
    (htokB : t ∈ builderTokens)
    (hkeys : ∀ p ∈ ipPairs m4 m6 a4 g4 a6 g6, t = p.1 →
      truthyStr p.2 = false)
    (hbase : t ∉ ["nmcli", "connection", "add", "type", "con-name",
      "ifname"]) :
    t ∉ words (_nmcli_cmd_builder "connection" "add" nm (some ct)
      (some ifn) none none m4 a4 g4 m6 a6 g6 topts) := by
  intro hmem
  rw [words_nmcli_add "connection" nm ct ifn none none m4 a4 g4 m6 a6 g6
    topts (by decide) hnm.2.1 hct.2.1 hifn.2.1
    (fun p hp => ⟨(htopts p hp).1.2.1, (htopts p hp).2.2.1⟩)
    (fun p hp h => (hip p hp h).2.1)] at hmem
  simp only [optBoolTokens, List.append_nil, List.mem_append,
    List.mem_cons, List.not_mem_nil, or_false] at hmem
  rcases hmem with ((h | h | h | h | h | h | h | h | h) | h) | h
  · exact hbase (by rw [h]; decide)
  · exact hbase (by rw [h]; decide)
  · exact hbase (by rw [h]; decide)
  · exact hbase (by rw [h]; decide)
  · exact plainArg_ne ct t hct htokB h.symm
  · exact hbase (by rw [h]; decide)
  · exact plainArg_ne nm t hnm htokB h.symm
  · exact hbase (by rw [h]; decide)
  · exact plainArg_ne ifn t hifn htokB h.symm
  · obtain ⟨p, hp, hc⟩ := mem_pairTokens.mp h
    rcases hc with h1 | h2
    · exact (htopts p hp).1.2.2 (h1 ▸ htok)
    · exact (htopts p hp).2.2.2 (h2 ▸ htok)
  · exact key_not_mem_ipTokens t m4 a4 g4 m6 a6 g6 hip hkeys htok h

/-- C3: an ADD command built with `auto_connect = False` and
`save = False` contains the literal token pairs `autoconnect no` and
`save no` (explicit False renders as the literal `no`, it is not
omitted); built with both parameters left unset (None), no autoconnect
token and no save token appears at all. -/
theorem C3_false_renders_no (nm ct ifn : String)
    (m4 a4 g4 m6 a6 g6 : Option String) (topts : List (String × PyVal))
    (hnm : plainArg nm) (hct : plainArg ct) (hifn : plainArg ifn)
    (htopts : ∀ p ∈ topts, optionTok p.1 ∧ optionTok (PyVal.render p.2))
    (hip : ∀ p ∈ ipPairs m4 m6 a4 g4 a6 g6,
      truthyStr p.2 = true → optionTok (p.2.getD "")) :
    words (_nmcli_cmd_builder "connection" "add" nm (some ct) (some ifn)
        (some (PyVal.pyBool false)) (some (PyVal.pyBool false))
        m4 a4 g4 m6 a6 g6 topts)
      = ["nmcli", "connection", "add", "type", ct, "con-name", nm,
         "ifname", ifn, "autoconnect", "no", "save", "no"]
        ++ pairTokens topts ++ ipTokens m4 m6 a4 g4 a6 g6
    ∧ "autoconnect" ∉ words (_nmcli_cmd_builder "connection" "add" nm
        (some ct) (some ifn) none none m4 a4 g4 m6 a6 g6 topts)
    ∧ "save" ∉ words (_nmcli_cmd_builder "connection" "add" nm
        (some ct) (some ifn) none none m4 a4 g4 m6 a6 g6 topts) := by
  refine ⟨?_, ?_, ?_⟩
  · rw [words_nmcli_add "connection" nm ct ifn (some (PyVal.pyBool false))
      (some (PyVal.pyBool false)) m4 a4 g4 m6 a6 g6 topts
      (by decide) hnm.2.1 hct.2.1 hifn.2.1
      (fun p hp => ⟨(htopts p hp).1.2.1, (htopts p hp).2.2.1⟩)
      (fun p hp h => (hip p hp h).2.1)]
    simp [optBoolTokens, _get_str_value]
  · exact key_not_mem_words_add "autoconnect" nm ct ifn m4 a4 g4 m6 a6 g6
      topts hnm hct hifn htopts hip (by decide) (by decide)
      (not_ip_key_truthy_false "autoconnect" m4 a4 g4 m6 a6 g6 (by decide))
      (by decide)
  · exact key_not_mem_words_add "save" nm ct ifn m4 a4 g4 m6 a6 g6
      topts hnm hct hifn htopts hip (by decide) (by decide)
      (not_ip_key_truthy_false "save" m4 a4 g4 m6 a6 g6 (by decide))
      (by decide)

/-- Witness for C3: a concrete ADD with both booleans False carries the
`autoconnect no` and `save no` pairs; with both unset, neither key
appears among the command tokens. -/
theorem C3_false_renders_no_witness :
    words (_nmcli_cmd_builder "connection" "add" "c3" (some "ethernet")
        (some "eth3") (some (PyVal.pyBool false)) (some (PyVal.pyBool false))
        none none none none none none [])
      = ["nmcli", "connection", "add", "type", "ethernet", "con-name",
         "c3", "ifname", "eth3", "autoconnect", "no", "save", "no"]
    ∧ "autoconnect" ∉ words (_nmcli_cmd_builder "connection" "add" "c3"
        (some "ethernet") (some "eth3") none none none none none none
        none none [])
    ∧ "save" ∉ words (_nmcli_cmd_builder "connection" "add" "c3"
        (some "ethernet") (some "eth3") none none none none none none
        none none []) := by
  have h := C3_false_renders_no "c3" "ethernet" "eth3" none none none
    none none none [] (by decide) (by decide) (by decide) (by decide)
    (by decide)
  exact ⟨h.1.trans (by decide), h.2.1, h.2.2⟩

/-- C6: in an ADD command built with autoconnect, save and all six IP
options left unset (None), no corresponding key token appears in the
built command at all; no empty token (stray separator) is produced; and
any plain token distinct from the structural tokens, the user arguments
and the provided type options is absent — in particular every absent
type-specific option key is absent from the command. -/
theorem C6_absent_options_omitted (nm ct ifn : String)
    (topts : List (String × PyVal))
    (hnm : plainArg nm) (hct : plainArg ct) (hifn : plainArg ifn)
    (htopts : ∀ p ∈ topts, optionTok p.1 ∧ optionTok (PyVal.render p.2)) :
    (∀ t ∈ ("autoconnect" :: "save" :: ipKeys),
      t ∉ words (_nmcli_cmd_builder "connection" "add" nm (some ct)
        (some ifn) none none none none none none none none topts))
    ∧ "" ∉ words (_nmcli_cmd_builder "connection" "add" nm (some ct)
        (some ifn) none none none none none none none none topts)
    ∧ ∀ k : String,
        k ∉ ["nmcli", "connection", "add", "type", "con-name", "ifname"] →
        k ≠ ct → k ≠ nm → k ≠ ifn →
        (∀ p ∈ topts, k ≠ p.1 ∧ k ≠ PyVal.render p.2) →
        k ∉ words (_nmcli_cmd_builder "connection" "add" nm (some ct)
          (some ifn) none none none none none none none none topts) := by
  have hipnone : ∀ p ∈ ipPairs (none : Option String) none none none none
      none, truthyStr p.2 = true → optionTok (p.2.getD "") := by decide
  have hmaster := words_nmcli_add "connection" nm ct ifn none none
    none none none none none none topts (by decide) hnm.2.1 hct.2.1
    hifn.2.1 (fun p hp => ⟨(htopts p hp).1.2.1, (htopts p hp).2.2.1⟩)
    (fun p hp h => (hipnone p hp h).2.1)
  refine ⟨?_, ?_, ?_⟩
  · intro t ht
    refine key_not_mem_words_add t nm ct ifn none none none none none
      none topts hnm hct hifn htopts hipnone ht ?_ ?_ ?_
    · fin_cases ht <;> decide
    · intro p hp h
      simp only [ipPairs, List.mem_cons, List.not_mem_nil, or_false] at hp
      rcases hp with rfl | rfl | rfl | rfl | rfl | rfl <;> rfl
    · fin_cases ht <;> decide
  · intro hmem
    rw [hmaster] at hmem
    simp only [optBoolTokens, List.append_nil, List.mem_append,
      List.mem_cons, List.not_mem_nil, or_false] at hmem
    rcases hmem with ((h | h | h | h | h | h | h | h | h) | h) | h
    · exact absurd h (by decide)
    · exact absurd h (by decide)
    · exact absurd h (by decide)
    · exact absurd h (by decide)
    · exact hct.1 h.symm
    · exact absurd h (by decide)
    · exact hnm.1 h.symm
    · exact absurd h (by decide)
    · exact hifn.1 h.symm
    · obtain ⟨p, hp, hc⟩ := mem_pairTokens.mp h
      rcases hc with h1 | h2
      · exact (htopts p hp).1.1 h1.symm
      · exact (htopts p hp).2.1 h2.symm
    · exact absurd h (by decide)
  · intro k hk hkct hknm hkifn hktopts hmem
    rw [hmaster] at hmem
    simp only [optBoolTokens, List.append_nil, List.mem_append,
      List.mem_cons, List.not_mem_nil, or_false] at hmem
    rcases hmem with ((h | h | h | h | h | h | h | h | h) | h) | h
    · exact hk (by rw [h]; decide)
    · exact hk (by rw [h]; decide)
    · exact hk (by rw [h]; decide)
    · exact hk (by rw [h]; decide)
    · exact hkct h
    · exact hk (by rw [h]; decide)
    · exact hknm h
    · exact hk (by rw [h]; decide)
    · exact hkifn h
    · obtain ⟨p, hp, hc⟩ := mem_pairTokens.mp h
      rcases hc with h1 | h2
      · exact (hktopts p hp).1 h1
      · exact (hktopts p hp).2 h2
    · rw [show ipTokens none none none none none none
          = ([] : List String) from rfl] at h
      exact (List.not_mem_nil k) h

/-- Witness for C6: a concrete ADD command with one provided type option
and everything else unset contains no autoconnect, save or IP key token,
no empty token, and no token for the absent `mtu` option. -/
theorem C6_absent_options_omitted_witness :
    "autoconnect" ∉ words (_nmcli_cmd_builder "connection" "add" "c6"
        (some "ethernet") (some "eth9") none none none none none none
        none none [("mac", PyVal.pyStr "00:11:22:33:44:55")])
    ∧ "ipv4.method" ∉ words (_nmcli_cmd_builder "connection" "add" "c6"
        (some "ethernet") (some "eth9") none none none none none none
        none none [("mac", PyVal.pyStr "00:11:22:33:44:55")])
    ∧ "" ∉ words (_nmcli_cmd_builder "connection" "add" "c6"
        (some "ethernet") (some "eth9") none none none none none none
        none none [("mac", PyVal.pyStr "00:11:22:33:44:55")])
    ∧ "mtu" ∉ words (_nmcli_cmd_builder "connection" "add" "c6"
        (some "ethernet") (some "eth9") none none none none none none
        none none [("mac", PyVal.pyStr "00:11:22:33:44:55")]) := by
  have h := C6_absent_options_omitted "c6" "ethernet" "eth9"
    [("mac", PyVal.pyStr "00:11:22:33:44:55")] (by decide) (by decide)
    (by decide) (by decide)
  exact ⟨h.1 "autoconnect" (by decide), h.1 "ipv4.method" (by decide),
    h.2.1, h.2.2 "mtu" (by decide) (by decide) (by decide) (by decide)
      (by decide)⟩

end Rrmngmnt
